import Mathlib

/-!
Verification of the narration revision pipeline of the story-lord repository
(`src/agents/narrator.py` together with the data model in `src/models.py`).

The pipeline walks a story architecture (plot events containing story beats),
and for every beat performs one Generate call and exactly two Evaluate/Revise
calls against an external text-generation capability, then appends the
finalized narration unit to the growing corpus.  The external calls are
modelled as function parameters returning `Except Failure _`; everything else
is a direct translation of the Python source.
-/

namespace StoryLord

/-- A character in the story with their profile details (models.py,
`CharacterProfile`; the optional `agent_config` field is unused by the
narrator and omitted). -/
structure CharacterProfile where
  name : String
  description : String
  role : String
  motivations : String
  relationships : String
  backstory : String
deriving DecidableEq, Repr

/-- A narrative event within a plot event (models.py, `StoryBeat`). -/
structure StoryBeat where
  description : String
  beat_type : String
  characters_involved : List String
deriving DecidableEq, Repr

/-- A major plot point containing story beats (models.py, `PlotEvent`). -/
structure PlotEvent where
  title : String
  summary : String
  beats : List StoryBeat
deriving DecidableEq, Repr

/-- Complete story structure with all plot events (models.py,
`StoryArchitecture`). -/
structure StoryArchitecture where
  plot_events : List PlotEvent
deriving DecidableEq, Repr

/-- Input parameters for the narrator agent (models.py, `NarratorInput`). -/
structure NarratorInput where
  story_architecture : StoryArchitecture
  characters : List CharacterProfile
  tone : String
deriving DecidableEq, Repr

/-- Narrative text for a single story beat (models.py, `BeatNarration`). -/
structure BeatNarration where
  narrative_text : String
  beat_reference : String
deriving DecidableEq, Repr

/-- Result of evaluating narrative against the story corpus (models.py,
`ConflictEvaluation`). -/
structure ConflictEvaluation where
  conflicts_found : List String
  revised_narrative : String
deriving DecidableEq, Repr

/-- Complete narrated story output (models.py, `NarratedStory`). -/
structure NarratedStory where
  narrations : List BeatNarration
deriving DecidableEq, Repr

/-- An opaque failure raised by the external text-generation capability
(transport or parsing error); the pipeline never inspects it. -/
structure Failure where
  msg : String
deriving DecidableEq, Repr

/-- The template fields assembled for one Generate call
(narrator.py, the `generation_context` dict in `generate_narration`). -/
structure GenerationContext where
  event_title : String
  event_summary : String
  beat_type : String
  beat_description : String
  involved_characters : String
  tone : String
  prior_context : String
  prior_narration : String
deriving DecidableEq, Repr

/-- The template fields assembled for one Evaluate/Revise call
(narrator.py, the `eval_context` dict in `generate_narration`). -/
structure EvalContext where
  current_narrative : String
  beat_type : String
  beat_description : String
  full_corpus : String
  prior_context : String
deriving DecidableEq, Repr

/-- narrator.py `_format_current_plot_event`: the current plot event's title
and summary. -/
def format_current_plot_event (event : PlotEvent) : String × String :=
  (event.title, event.summary)

/-- narrator.py `_format_story_beat`: the story beat type and description. -/
def format_story_beat (beat : StoryBeat) : String × String :=
  (beat.beat_type, beat.description)

/-- The per-character block rendered by `_format_involved_characters` for the
matched profiles (the loop body building `lines`). -/
def involved_character_lines (char : CharacterProfile) : List String :=
  ["### " ++ char.name ++ " (" ++ char.role ++ ")",
   "**Description:** " ++ char.description,
   "**Motivations:** " ++ char.motivations,
   "**Relationships:** " ++ char.relationships,
   ""]

/-- The rendering of a non-empty list of involved character profiles
(`"\n".join(lines)` over the blocks). -/
def render_involved (involved_chars : List CharacterProfile) : String :=
  String.intercalate "\n" (involved_chars.flatMap involved_character_lines)

/-- narrator.py `_format_involved_characters`: character profiles for the
characters involved in this beat.  Python builds `set(beat.characters_involved)`
and keeps the roster entries whose name is a member; set membership agrees
with list membership, embedded here with `List.contains`. -/
def format_involved_characters (beat : StoryBeat)
    (characters : List CharacterProfile) : String :=
  let involved_chars :=
    characters.filter (fun c => beat.characters_involved.contains c.name)
  if involved_chars.isEmpty then
    "No specific characters identified for this beat."
  else
    render_involved involved_chars

/-- One beat line of `_format_prior_context`
(`- [{beat_type}] {description} (Characters: {chars})`). -/
def prior_context_beat_line (beat : StoryBeat) : String :=
  let chars := if beat.characters_involved.isEmpty then "None"
               else String.intercalate ", " beat.characters_involved
  "- [" ++ beat.beat_type ++ "] " ++ beat.description ++
    " (Characters: " ++ chars ++ ")"

/-- The lines rendered for one previous plot event in `_format_prior_context`
(the `enumerate(prior_events, 1)` loop body; `i` is the 1-based index). -/
def prior_event_lines (i : Nat) (event : PlotEvent) : List String :=
  ["### Plot Event " ++ toString i ++ ": " ++ event.title,
   event.summary ++ "\n"] ++
  event.beats.map prior_context_beat_line ++ [""]

/-- All lines for the previous plot events, numbered from `i` upward. -/
def prior_events_lines (i : Nat) : List PlotEvent → List String
  | [] => []
  | event :: rest => prior_event_lines i event ++ prior_events_lines (i + 1) rest

/-- narrator.py `_format_prior_context`: all prior plot events and beats for
context — all beats of all previous plot events, then beats
`0..current_beat_idx-1` of the current event. -/
def format_prior_context (prior_events : List PlotEvent)
    (current_event : PlotEvent) (current_beat_idx : Nat) : String :=
  if prior_events.isEmpty ∧ current_beat_idx = 0 then
    "This is the beginning of the story. No prior context."
  else
    let lines := prior_events_lines 1 prior_events ++
      (if current_beat_idx > 0 then
        let event_num := prior_events.length + 1
        ["### Plot Event " ++ toString event_num ++ " (Current): " ++
           current_event.title,
         current_event.summary ++ "\n"] ++
        (current_event.beats.take current_beat_idx).map prior_context_beat_line
          ++ [""]
      else [])
    if lines.isEmpty then "No prior context."
    else String.intercalate "\n" lines

/-- narrator.py `_format_prior_narration`: all previously written narrative
text, or the sentinel if the corpus is empty. -/
def format_prior_narration (narrations : List BeatNarration) : String :=
  if narrations.isEmpty then
    "No narrative has been written yet. This is the first beat."
  else
    String.intercalate "\n" (narrations.flatMap (fun narration =>
      ["--- " ++ narration.beat_reference ++ " ---",
       narration.narrative_text, ""]))

/-- Observation record for one beat's processing: the context passed to its
Generate call and, in order, the contexts passed to its Evaluate/Revise
calls.  Pure instrumentation; it does not influence the pipeline. -/
structure BeatTrace where
  genCtx : GenerationContext
  evalCtxs : List EvalContext
deriving DecidableEq, Repr

/-- A default trace used only as the out-of-range fallback of `List.getD`
in theorem statements. -/
def default_trace : BeatTrace :=
  { genCtx := { event_title := "", event_summary := "", beat_type := "",
                beat_description := "", involved_characters := "", tone := "",
                prior_context := "", prior_narration := "" },
    evalCtxs := [] }

/-- The `eval_context` dict built at the top of each revision round
(narrator.py, inside the `range(2, 4)` loop). -/
def eval_context_of (beat_type beat_description : String)
    (all_narrations : List BeatNarration)
    (prior_events : List PlotEvent) (plot_event : PlotEvent) (beat_idx : Nat)
    (narration : BeatNarration) : EvalContext :=
  { current_narrative := narration.narrative_text,
    beat_type := beat_type,
    beat_description := beat_description,
    full_corpus := format_prior_narration all_narrations,
    prior_context := format_prior_context prior_events plot_event beat_idx }

/-- The `for iteration in range(2, 4)` loop of `generate_narration`
(narrator.py): one Evaluate/Revise round per list element.  Each round
rebuilds `eval_context` from the unchanged corpus `all_narrations` and the
unit's current text, invokes the evaluation chain, and replaces the unit's
`narrative_text` with the returned `revised_narrative`.  The processed
contexts are appended to `ctxs` for observation. -/
def eval_rounds (evaluation_chain : EvalContext → Except Failure ConflictEvaluation)
    (beat_type beat_description : String)
    (all_narrations : List BeatNarration)
    (prior_events : List PlotEvent) (plot_event : PlotEvent) (beat_idx : Nat) :
    List Nat → BeatNarration → List EvalContext →
    Except Failure (BeatNarration × List EvalContext)
  | [], narration, ctxs => .ok (narration, ctxs)
  | _iteration :: rest, narration, ctxs =>
    let eval_context : EvalContext :=
      eval_context_of beat_type beat_description all_narrations
        prior_events plot_event beat_idx narration
    match evaluation_chain eval_context with
    | .error f => .error f
    | .ok eval_result =>
      eval_rounds evaluation_chain beat_type beat_description all_narrations
        prior_events plot_event beat_idx rest
        { narration with narrative_text := eval_result.revised_narrative }
        (ctxs ++ [eval_context])

/-- The `generation_context` dict built before the Generate call
(narrator.py, `generate_narration`). -/
def generation_context_of (characters : List CharacterProfile) (tone : String)
    (prior_events : List PlotEvent) (plot_event : PlotEvent) (beat_idx : Nat)
    (beat : StoryBeat) (all_narrations : List BeatNarration) :
    GenerationContext :=
  { event_title := (format_current_plot_event plot_event).1,
    event_summary := (format_current_plot_event plot_event).2,
    beat_type := (format_story_beat beat).1,
    beat_description := (format_story_beat beat).2,
    involved_characters := format_involved_characters beat characters,
    tone := tone,
    prior_context := format_prior_context prior_events plot_event beat_idx,
    prior_narration := format_prior_narration all_narrations }

/-- The walker-assigned label
`f"Event {event_idx + 1}, Beat {beat_idx + 1}"` (narrator.py, line 239). -/
def walker_beat_reference (event_idx beat_idx : Nat) : String :=
  "Event " ++ toString (event_idx + 1) ++ ", Beat " ++ toString (beat_idx + 1)

/-- The assignment `narration.beat_reference = beat_reference` performed by
the walker on the unit returned by the Generate call (narrator.py,
line 259). -/
def assign_ref (beat_reference : String) (narration : BeatNarration) :
    BeatNarration :=
  { narration with beat_reference := beat_reference }

/-- The body of the inner beat loop of `generate_narration` (narrator.py):
format the beat, build the generation context from the unmodified corpus,
invoke the generation chain, overwrite the returned unit's `beat_reference`
with the walker-assigned label, then run the two Evaluate/Revise rounds
(`range(2, 4)`, embedded as `List.range' 2 2 = [2, 3]`).  Returns the
finalized unit together with its observation trace. -/
def process_beat (generation_chain : GenerationContext → Except Failure BeatNarration)
    (evaluation_chain : EvalContext → Except Failure ConflictEvaluation)
    (characters : List CharacterProfile) (tone : String)
    (prior_events : List PlotEvent) (plot_event : PlotEvent)
    (event_idx beat_idx : Nat) (beat : StoryBeat)
    (all_narrations : List BeatNarration) :
    Except Failure (BeatNarration × BeatTrace) :=
  let beat_reference := walker_beat_reference event_idx beat_idx
  let generation_context :=
    generation_context_of characters tone prior_events plot_event beat_idx
      beat all_narrations
  match generation_chain generation_context with
  | .error f => .error f
  | .ok narration0 =>
    let narration := assign_ref beat_reference narration0
    match eval_rounds evaluation_chain (format_story_beat beat).1
        (format_story_beat beat).2 all_narrations
        prior_events plot_event beat_idx (List.range' 2 2) narration [] with
    | .error f => .error f
    | .ok (narration2, ctxs) => .ok (narration2, ⟨generation_context, ctxs⟩)

/-- The inner `for beat_idx, beat in enumerate(plot_event.beats)` loop of
`generate_narration`: process each beat in order and append the finalized
unit to the corpus (`all_narrations.append(narration)`), the Commit step.
On failure the error also carries the corpus as it stood at the point of
failure, for observation; the Python exception aborts the walk identically. -/
def walk_beats (generation_chain : GenerationContext → Except Failure BeatNarration)
    (evaluation_chain : EvalContext → Except Failure ConflictEvaluation)
    (characters : List CharacterProfile) (tone : String)
    (prior_events : List PlotEvent) (plot_event : PlotEvent) :
    Nat → List StoryBeat → List BeatNarration → List BeatTrace →
    Except (Failure × List BeatNarration) (List BeatNarration × List BeatTrace)
  | _, [], all_narrations, traces => .ok (all_narrations, traces)
  | beat_idx, beat :: rest, all_narrations, traces =>
    match process_beat generation_chain evaluation_chain characters tone
        prior_events plot_event prior_events.length beat_idx beat all_narrations with
    | .error f => .error (f, all_narrations)
    | .ok (narration, tr) =>
      walk_beats generation_chain evaluation_chain characters tone
        prior_events plot_event (beat_idx + 1) rest
        (all_narrations ++ [narration]) (traces ++ [tr])

/-- The outer `for event_idx, plot_event in enumerate(plot_events)` loop of
`generate_narration`: `prior_events = plot_events[:event_idx]` is carried as
an accumulator, so `event_idx = prior_events.length` throughout. -/
def walk_events (generation_chain : GenerationContext → Except Failure BeatNarration)
    (evaluation_chain : EvalContext → Except Failure ConflictEvaluation)
    (characters : List CharacterProfile) (tone : String) :
    List PlotEvent → List PlotEvent → List BeatNarration → List BeatTrace →
    Except (Failure × List BeatNarration) (List BeatNarration × List BeatTrace)
  | _, [], all_narrations, traces => .ok (all_narrations, traces)
  | prior_events, plot_event :: rest, all_narrations, traces =>
    match walk_beats generation_chain evaluation_chain characters tone
        prior_events plot_event 0 plot_event.beats all_narrations traces with
    | .error fp => .error fp
    | .ok (all_narrations2, traces2) =>
      walk_events generation_chain evaluation_chain characters tone
        (prior_events ++ [plot_event]) rest all_narrations2 traces2

/-- narrator.py `generate_narration` with its observation traces: walk every
plot event and beat of the architecture, starting from the empty corpus. -/
def generate_narration_traced
    (generation_chain : GenerationContext → Except Failure BeatNarration)
    (evaluation_chain : EvalContext → Except Failure ConflictEvaluation)
    (input_data : NarratorInput) :
    Except (Failure × List BeatNarration) (List BeatNarration × List BeatTrace) :=
  walk_events generation_chain evaluation_chain input_data.characters
    input_data.tone [] input_data.story_architecture.plot_events [] []

/-- narrator.py `generate_narration`: generate complete narrative prose from
a story architecture.  The two LangChain chains built by
`create_generation_chain` / `create_evaluation_chain` are the external
text-generation capability, passed in as parameters.  On success returns
`NarratedStory(narrations=all_narrations)`; on failure the propagated error
carries the corpus at the point of failure. -/
def generate_narration
    (generation_chain : GenerationContext → Except Failure BeatNarration)
    (evaluation_chain : EvalContext → Except Failure ConflictEvaluation)
    (input_data : NarratorInput) :
    Except (Failure × List BeatNarration) NarratedStory :=
  match generate_narration_traced generation_chain evaluation_chain input_data with
  | .error fp => .error fp
  | .ok (all_narrations, _) => .ok ⟨all_narrations⟩

/-- One scheduled beat of the walk, with the loop variables the nested loops
of `generate_narration` supply for it: `prior_events` is
`plot_events[:event_idx]` (so the event index is `prior_events.length`) and
`beat_idx` is the 0-based position of `beat` in `plot_event.beats`. -/
structure BeatTask where
  prior_events : List PlotEvent
  plot_event : PlotEvent
  beat_idx : Nat
  beat : StoryBeat
deriving DecidableEq, Repr

/-- The beat tasks of one plot event, beats numbered from `beat_idx`. -/
def beat_tasks_of (prior_events : List PlotEvent) (plot_event : PlotEvent) :
    Nat → List StoryBeat → List BeatTask
  | _, [] => []
  | beat_idx, b :: rest =>
    ⟨prior_events, plot_event, beat_idx, b⟩ ::
      beat_tasks_of prior_events plot_event (beat_idx + 1) rest

/-- The full schedule of beat tasks for a list of plot events, in document
order, with `prior_events` accumulating the already-passed events. -/
def beat_tasks : List PlotEvent → List PlotEvent → List BeatTask
  | _, [] => []
  | prior_events, plot_event :: rest =>
    beat_tasks_of prior_events plot_event 0 plot_event.beats ++
      beat_tasks (prior_events ++ [plot_event]) rest

/-- The walk of `generate_narration` flattened over its beat-task schedule:
processing the tasks one at a time, committing each finalized unit. -/
def walk_tasks (generation_chain : GenerationContext → Except Failure BeatNarration)
    (evaluation_chain : EvalContext → Except Failure ConflictEvaluation)
    (characters : List CharacterProfile) (tone : String) :
    List BeatTask → List BeatNarration → List BeatTrace →
    Except (Failure × List BeatNarration) (List BeatNarration × List BeatTrace)
  | [], all_narrations, traces => .ok (all_narrations, traces)
  | t :: rest, all_narrations, traces =>
    match process_beat generation_chain evaluation_chain characters tone
        t.prior_events t.plot_event t.prior_events.length t.beat_idx t.beat
        all_narrations with
    | .error f => .error (f, all_narrations)
    | .ok (narration, tr) =>
      walk_tasks generation_chain evaluation_chain characters tone rest
        (all_narrations ++ [narration]) (traces ++ [tr])

/-- A default narration used only as the out-of-range fallback of
`List.getD` in theorem statements. -/
def default_narration : BeatNarration := ⟨"", ""⟩

/-- The beat-reference label the walker assigns to a beat task. -/
def task_ref (t : BeatTask) : String :=
  walker_beat_reference t.prior_events.length t.beat_idx


/-- Total number of story beats in an architecture. -/
def total_beats (arch : StoryArchitecture) : Nat :=
  (arch.plot_events.map (fun ev => ev.beats.length)).sum

/-- Spec-side: the beat-reference labels claimed for the beats of one event,
`"Event {i}, Beat {j}"` with 1-based indices, `j` counting from `beat_num`. -/
def expected_refs_of (event_num : Nat) : Nat → List StoryBeat → List String
  | _, [] => []
  | beat_num, _ :: rest =>
    ("Event " ++ toString event_num ++ ", Beat " ++ toString beat_num) ::
      expected_refs_of event_num (beat_num + 1) rest

/-- Spec-side: the labels for a list of events, numbered from `event_num`. -/
def expected_beat_refs_from (event_num : Nat) : List PlotEvent → List String
  | [] => []
  | ev :: rest =>
    expected_refs_of event_num 1 ev.beats ++
      expected_beat_refs_from (event_num + 1) rest

/-- Spec-side: the beat-reference labels the spec's Ordering property
prescribes for a whole architecture (events and beats 1-based, in document
order). -/
def expected_beat_refs (arch : StoryArchitecture) : List String :=
  expected_beat_refs_from 1 arch.plot_events


/-- The walker's state, seen as a state machine: the frozen run input plus
the mutable corpus and observation traces.  `generate_narration` only ever
writes to `all_narrations` (the Commit append) and to the in-flight unit;
`input_data` is carried through untouched, mirroring that the Python
function never assigns into `input_data`. -/
structure WalkState where
  input_data : NarratorInput
  all_narrations : List BeatNarration
  traces : List BeatTrace
deriving DecidableEq, Repr

/-- One beat of the walk as a state transition. -/
def step_task (g : GenerationContext → Except Failure BeatNarration)
    (e : EvalContext → Except Failure ConflictEvaluation)
    (t : BeatTask) (s : WalkState) : Except Failure WalkState :=
  match process_beat g e s.input_data.characters s.input_data.tone
      t.prior_events t.plot_event t.prior_events.length t.beat_idx t.beat
      s.all_narrations with
  | .error f => .error f
  | .ok (narration, tr) =>
    .ok { s with all_narrations := s.all_narrations ++ [narration],
                 traces := s.traces ++ [tr] }

/-- The whole walk as iterated state transitions. -/
def run_state (g : GenerationContext → Except Failure BeatNarration)
    (e : EvalContext → Except Failure ConflictEvaluation) :
    List BeatTask → WalkState → Except Failure WalkState
  | [], s => .ok s
  | t :: rest, s =>
    match step_task g e t s with
    | .error f => .error f
    | .ok s2 => run_state g e rest s2


/-- A deterministic stand-in for the external generation capability: always
returns the same draft text, with a bogus `beat_reference` that the walker
must overwrite. -/
def stub_gen : GenerationContext → Except Failure BeatNarration :=
  fun _ => .ok ⟨"x", "raw"⟩

/-- A deterministic stand-in for the external evaluation capability: reports
no conflicts and echoes the input text, as the no-conflict contract asks. -/
def stub_eval : EvalContext → Except Failure ConflictEvaluation :=
  fun ctx => .ok ⟨[], ctx.current_narrative⟩

/-- An evaluation stand-in that reports a conflict yet still echoes the
input text; used to show the walker never inspects `conflicts_found`. -/
def noisy_eval : EvalContext → Except Failure ConflictEvaluation :=
  fun ctx => .ok ⟨["conflict noted"], ctx.current_narrative⟩

/-- An evaluation stand-in that always fails. -/
def failing_eval : EvalContext → Except Failure ConflictEvaluation :=
  fun _ => .error ⟨"transport error"⟩

def elijah : CharacterProfile :=
  ⟨"Elijah", "a brooding man", "protagonist", "revenge", "rivals Jasper", "orphan"⟩

def jasper : CharacterProfile :=
  ⟨"Jasper", "a sly man", "antagonist", "power", "rivals Elijah", "noble"⟩

def riley : CharacterProfile :=
  ⟨"Riley", "an observer", "supporting", "curiosity", "watches both", "unknown"⟩

def sample_beat1 : StoryBeat :=
  ⟨"Elijah confronts Jasper", "conversation", ["Elijah", "Jasper"]⟩

def sample_beat2 : StoryBeat :=
  ⟨"Riley watches from afar", "occurrence", ["Riley"]⟩

def sample_event : PlotEvent :=
  ⟨"Confrontation", "Two rivals meet", [sample_beat1, sample_beat2]⟩

def sample_input : NarratorInput :=
  ⟨⟨[sample_event]⟩, [elijah, jasper, riley], "tense"⟩


theorem walk_beats_eq_walk_tasks
    (g : GenerationContext → Except Failure BeatNarration)
    (e : EvalContext → Except Failure ConflictEvaluation)
    (characters : List CharacterProfile) (tone : String)
    (prior_events : List PlotEvent) (plot_event : PlotEvent) :
    ∀ (beats : List StoryBeat) (beat_idx : Nat) (acc : List BeatNarration)
      (trs : List BeatTrace),
      walk_beats g e characters tone prior_events plot_event beat_idx beats acc trs
        = walk_tasks g e characters tone
            (beat_tasks_of prior_events plot_event beat_idx beats) acc trs := by
  intro beats
  induction beats with
  | nil => intro beat_idx acc trs; rfl
  | cons b rest ih =>
    intro beat_idx acc trs
    simp only [walk_beats, beat_tasks_of, walk_tasks]
    cases process_beat g e characters tone prior_events plot_event
        prior_events.length beat_idx b acc with
    | error f => rfl
    | ok p => exact ih (beat_idx + 1) (acc ++ [p.1]) (trs ++ [p.2])

theorem walk_tasks_append
    (g : GenerationContext → Except Failure BeatNarration)
    (e : EvalContext → Except Failure ConflictEvaluation)
    (characters : List CharacterProfile) (tone : String) :
    ∀ (l₁ l₂ : List BeatTask) (acc : List BeatNarration) (trs : List BeatTrace),
      walk_tasks g e characters tone (l₁ ++ l₂) acc trs
        = match walk_tasks g e characters tone l₁ acc trs with
          | .error fp => .error fp
          | .ok (a, t) => walk_tasks g e characters tone l₂ a t := by
  intro l₁
  induction l₁ with
  | nil => intro l₂ acc trs; rfl
  | cons t rest ih =>
    intro l₂ acc trs
    simp only [List.cons_append, walk_tasks]
    cases process_beat g e characters tone t.prior_events t.plot_event
        t.prior_events.length t.beat_idx t.beat acc with
    | error f => rfl
    | ok p => exact ih l₂ (acc ++ [p.1]) (trs ++ [p.2])

theorem walk_events_eq_walk_tasks
    (g : GenerationContext → Except Failure BeatNarration)
    (e : EvalContext → Except Failure ConflictEvaluation)
    (characters : List CharacterProfile) (tone : String) :
    ∀ (events prior_events : List PlotEvent) (acc : List BeatNarration)
      (trs : List BeatTrace),
      walk_events g e characters tone prior_events events acc trs
        = walk_tasks g e characters tone (beat_tasks prior_events events) acc trs := by
  intro events
  induction events with
  | nil => intro prior_events acc trs; rfl
  | cons ev rest ih =>
    intro prior_events acc trs
    simp only [walk_events, beat_tasks, walk_tasks_append,
      walk_beats_eq_walk_tasks]
    cases walk_tasks g e characters tone
        (beat_tasks_of prior_events ev 0 ev.beats) acc trs with
    | error fp => rfl
    | ok p => exact ih (prior_events ++ [ev]) p.1 p.2

theorem eval_rounds_spec
    (e : EvalContext → Except Failure ConflictEvaluation)
    (bt bd : String) (ns : List BeatNarration)
    (pe : List PlotEvent) (ev : PlotEvent) (bi : Nat) :
    ∀ (iters : List Nat) (narration : BeatNarration) (ctxs : List EvalContext)
      (n2 : BeatNarration) (ctxs2 : List EvalContext),
      eval_rounds e bt bd ns pe ev bi iters narration ctxs = .ok (n2, ctxs2) →
      n2.beat_reference = narration.beat_reference ∧
      ∃ new, ctxs2 = ctxs ++ new ∧ new.length = iters.length ∧
        ∀ c ∈ new, c.full_corpus = format_prior_narration ns := by
  intro iters
  induction iters with
  | nil =>
    intro narration ctxs n2 ctxs2 h
    simp only [eval_rounds, Except.ok.injEq, Prod.mk.injEq] at h
    obtain ⟨h1, h2⟩ := h
    subst h1; subst h2
    exact ⟨rfl, [], by simp⟩
  | cons it rest ih =>
    intro narration ctxs n2 ctxs2 h
    simp only [eval_rounds] at h
    cases he : e (eval_context_of bt bd ns pe ev bi narration) with
    | error f => rw [he] at h; exact absurd h (by simp)
    | ok eval_result =>
      rw [he] at h
      obtain ⟨href, new, hctxs, hlen, hfc⟩ := ih _ _ _ _ h
      refine ⟨href, eval_context_of bt bd ns pe ev bi narration :: new, ?_, ?_, ?_⟩
      · simpa using hctxs
      · simpa using hlen
      · intro c hc
        rcases List.mem_cons.mp hc with h1 | h1
        · subst h1; rfl
        · exact hfc c h1

theorem process_beat_spec
    (g : GenerationContext → Except Failure BeatNarration)
    (e : EvalContext → Except Failure ConflictEvaluation)
    (characters : List CharacterProfile) (tone : String)
    (prior_events : List PlotEvent) (plot_event : PlotEvent)
    (event_idx beat_idx : Nat) (beat : StoryBeat)
    (all_narrations : List BeatNarration) (n : BeatNarration) (tr : BeatTrace) :
    process_beat g e characters tone prior_events plot_event event_idx beat_idx
        beat all_narrations = .ok (n, tr) →
    n.beat_reference = walker_beat_reference event_idx beat_idx ∧
    tr.genCtx = generation_context_of characters tone prior_events plot_event
        beat_idx beat all_narrations ∧
    tr.evalCtxs.length = 2 ∧
    ∀ c ∈ tr.evalCtxs, c.full_corpus = format_prior_narration all_narrations := by
  intro h
  simp only [process_beat] at h
  cases hg : g (generation_context_of characters tone prior_events plot_event
      beat_idx beat all_narrations) with
  | error f => rw [hg] at h; exact absurd h (by simp)
  | ok narration0 =>
    simp only [hg] at h
    cases hr : eval_rounds e (format_story_beat beat).1 (format_story_beat beat).2
        all_narrations prior_events plot_event beat_idx (List.range' 2 2)
        (assign_ref (walker_beat_reference event_idx beat_idx) narration0) [] with
    | error f => simp only [hr] at h; exact absurd h (by simp)
    | ok p =>
      obtain ⟨n2, ctxs⟩ := p
      simp only [hr, Except.ok.injEq, Prod.mk.injEq] at h
      obtain ⟨hn, htr⟩ := h
      subst hn
      obtain ⟨href, new, hctxs, hlen, hfc⟩ :=
        eval_rounds_spec e (format_story_beat beat).1 (format_story_beat beat).2
          all_narrations prior_events plot_event beat_idx (List.range' 2 2)
          _ [] _ _ hr
      subst htr
      refine ⟨href, rfl, ?_, ?_⟩
      · simp only [List.nil_append] at hctxs
        simp [hctxs, hlen]
      · intro c hc
        simp only [List.nil_append] at hctxs
        exact hfc c (by simpa [hctxs] using hc)

theorem walk_tasks_ok_extends
    (g : GenerationContext → Except Failure BeatNarration)
    (e : EvalContext → Except Failure ConflictEvaluation)
    (characters : List CharacterProfile) (tone : String) :
    ∀ (tasks : List BeatTask) (acc : List BeatNarration) (trs : List BeatTrace)
      (ns : List BeatNarration) (trs2 : List BeatTrace),
      walk_tasks g e characters tone tasks acc trs = .ok (ns, trs2) →
      ∃ newns newtrs, ns = acc ++ newns ∧ trs2 = trs ++ newtrs ∧
        newns.length = tasks.length ∧ newtrs.length = tasks.length := by
  intro tasks
  induction tasks with
  | nil =>
    intro acc trs ns trs2 h
    simp only [walk_tasks, Except.ok.injEq, Prod.mk.injEq] at h
    obtain ⟨h1, h2⟩ := h
    subst h1; subst h2
    exact ⟨[], [], by simp, by simp, rfl, rfl⟩
  | cons t rest ih =>
    intro acc trs ns trs2 h
    simp only [walk_tasks] at h
    cases hp : process_beat g e characters tone t.prior_events t.plot_event
        t.prior_events.length t.beat_idx t.beat acc with
    | error f => simp only [hp] at h; exact absurd h (by simp)
    | ok p =>
      obtain ⟨narration, tr⟩ := p
      simp only [hp] at h
      obtain ⟨newns, newtrs, h1, h2, h3, h4⟩ := ih _ _ _ _ h
      exact ⟨narration :: newns, tr :: newtrs, by simpa using h1,
        by simpa using h2, by simpa using h3, by simpa using h4⟩

theorem walk_tasks_ok_refs
    (g : GenerationContext → Except Failure BeatNarration)
    (e : EvalContext → Except Failure ConflictEvaluation)
    (characters : List CharacterProfile) (tone : String) :
    ∀ (tasks : List BeatTask) (acc : List BeatNarration) (trs : List BeatTrace)
      (ns : List BeatNarration) (trs2 : List BeatTrace),
      walk_tasks g e characters tone tasks acc trs = .ok (ns, trs2) →
      ns.map BeatNarration.beat_reference =
        acc.map BeatNarration.beat_reference ++ tasks.map task_ref := by
  intro tasks
  induction tasks with
  | nil =>
    intro acc trs ns trs2 h
    simp only [walk_tasks, Except.ok.injEq, Prod.mk.injEq] at h
    simp [h.1.symm]
  | cons t rest ih =>
    intro acc trs ns trs2 h
    simp only [walk_tasks] at h
    cases hp : process_beat g e characters tone t.prior_events t.plot_event
        t.prior_events.length t.beat_idx t.beat acc with
    | error f => simp only [hp] at h; exact absurd h (by simp)
    | ok p =>
      obtain ⟨narration, tr⟩ := p
      simp only [hp] at h
      have href := (process_beat_spec g e characters tone t.prior_events
        t.plot_event t.prior_events.length t.beat_idx t.beat acc narration tr hp).1
      have := ih _ _ _ _ h
      simp only [List.map_append, List.map_cons, List.map_nil] at this
      simp [this, href, task_ref]

theorem walk_tasks_ok_evalcount
    (g : GenerationContext → Except Failure BeatNarration)
    (e : EvalContext → Except Failure ConflictEvaluation)
    (characters : List CharacterProfile) (tone : String) :
    ∀ (tasks : List BeatTask) (acc : List BeatNarration) (trs : List BeatTrace)
      (ns : List BeatNarration) (trs2 : List BeatTrace),
      walk_tasks g e characters tone tasks acc trs = .ok (ns, trs2) →
      trs2.map (fun tr => tr.evalCtxs.length) =
        trs.map (fun tr => tr.evalCtxs.length) ++
          List.replicate tasks.length 2 := by
  intro tasks
  induction tasks with
  | nil =>
    intro acc trs ns trs2 h
    simp only [walk_tasks, Except.ok.injEq, Prod.mk.injEq] at h
    simp [h.2.symm]
  | cons t rest ih =>
    intro acc trs ns trs2 h
    simp only [walk_tasks] at h
    cases hp : process_beat g e characters tone t.prior_events t.plot_event
        t.prior_events.length t.beat_idx t.beat acc with
    | error f => simp only [hp] at h; exact absurd h (by simp)
    | ok p =>
      obtain ⟨narration, tr⟩ := p
      simp only [hp] at h
      have hcount := (process_beat_spec g e characters tone t.prior_events
        t.plot_event t.prior_events.length t.beat_idx t.beat acc
        narration tr hp).2.2.1
      have := ih _ _ _ _ h
      simp only [List.map_append, List.map_cons, List.map_nil] at this
      simp [this, hcount, List.replicate_succ]

theorem walk_tasks_error_decomp
    (g : GenerationContext → Except Failure BeatNarration)
    (e : EvalContext → Except Failure ConflictEvaluation)
    (characters : List CharacterProfile) (tone : String) :
    ∀ (tasks : List BeatTask) (acc : List BeatNarration) (trs : List BeatTrace)
      (f : Failure) (p : List BeatNarration),
      walk_tasks g e characters tone tasks acc trs = .error (f, p) →
      ∃ pre t post trs2,
        tasks = pre ++ t :: post ∧
        walk_tasks g e characters tone pre acc trs = .ok (p, trs2) ∧
        p.length = acc.length + pre.length ∧
        process_beat g e characters tone t.prior_events t.plot_event
          t.prior_events.length t.beat_idx t.beat p = .error f := by
  intro tasks
  induction tasks with
  | nil =>
    intro acc trs f p h
    exact absurd h (by simp [walk_tasks])
  | cons t rest ih =>
    intro acc trs f p h
    simp only [walk_tasks] at h
    cases hp : process_beat g e characters tone t.prior_events t.plot_event
        t.prior_events.length t.beat_idx t.beat acc with
    | error f0 =>
      simp only [hp, Except.error.injEq, Prod.mk.injEq] at h
      obtain ⟨h1, h2⟩ := h
      subst h1; subst h2
      exact ⟨[], t, rest, trs, rfl, by simp [walk_tasks], by simp, hp⟩
    | ok q =>
      obtain ⟨narration, tr⟩ := q
      simp only [hp] at h
      obtain ⟨pre, t2, post, trs2, h1, h2, h3, h4⟩ := ih _ _ _ _ h
      refine ⟨t :: pre, t2, post, trs2, by simp [h1], ?_, ?_, h4⟩
      · simp only [walk_tasks, hp]
        exact h2
      · simpa [Nat.add_comm, Nat.add_assoc, Nat.add_left_comm] using h3

/-- The invariant behind claim C4: every Evaluate/Revise context recorded for
the beat at global position `k` renders the corpus as it stood when that beat
was processed, i.e. the first `k` committed narrations. -/
theorem walk_tasks_corpus_inv
    (g : GenerationContext → Except Failure BeatNarration)
    (e : EvalContext → Except Failure ConflictEvaluation)
    (characters : List CharacterProfile) (tone : String) :
    ∀ (tasks : List BeatTask) (acc : List BeatNarration) (trs : List BeatTrace)
      (ns : List BeatNarration) (trs2 : List BeatTrace),
      walk_tasks g e characters tone tasks acc trs = .ok (ns, trs2) →
      trs.length = acc.length →
      (∀ k, ((trs.getD k default_trace).evalCtxs).map EvalContext.full_corpus
          = List.replicate ((trs.getD k default_trace).evalCtxs).length
              (format_prior_narration (acc.take k))) →
      ∀ k, ((trs2.getD k default_trace).evalCtxs).map EvalContext.full_corpus
          = List.replicate ((trs2.getD k default_trace).evalCtxs).length
              (format_prior_narration (ns.take k)) := by
  intro tasks
  induction tasks with
  | nil =>
    intro acc trs ns trs2 h hlen hinv
    simp only [walk_tasks, Except.ok.injEq, Prod.mk.injEq] at h
    obtain ⟨h1, h2⟩ := h
    subst h1; subst h2
    exact hinv
  | cons t rest ih =>
    intro acc trs ns trs2 h hlen hinv
    simp only [walk_tasks] at h
    cases hp : process_beat g e characters tone t.prior_events t.plot_event
        t.prior_events.length t.beat_idx t.beat acc with
    | error f => simp only [hp] at h; exact absurd h (by simp)
    | ok q =>
      obtain ⟨narration, tr⟩ := q
      simp only [hp] at h
      obtain ⟨-, -, hcount, hfc⟩ := process_beat_spec g e characters tone
        t.prior_events t.plot_event t.prior_events.length t.beat_idx t.beat
        acc narration tr hp
      refine ih (acc ++ [narration]) (trs ++ [tr]) ns trs2 h (by simp [hlen]) ?_
      intro k
      rcases Nat.lt_trichotomy k trs.length with hk | hk | hk
      · rw [List.getD_append _ _ _ _ hk]
        rw [List.take_append_of_le_length (by omega)]
        exact hinv k
      · subst hk
        have hget : (trs ++ [tr]).getD trs.length default_trace = tr := by
          rw [List.getD_append_right _ _ _ _ (Nat.le_refl _)]
          simp
        rw [hget, hlen, List.take_left]
        rw [List.eq_replicate_iff]
        refine ⟨by simp, ?_⟩
        intro b hb
        obtain ⟨c, hc, rfl⟩ := List.mem_map.mp hb
        exact hfc c hc
      · have hget : (trs ++ [tr]).getD k default_trace = default_trace := by
          rw [List.getD_append_right _ _ _ _ (Nat.le_of_lt hk)]
          apply List.getD_eq_default
          simp; omega
        rw [hget]
        rfl

theorem beat_tasks_of_map_ref (pe : List PlotEvent) (ev : PlotEvent) :
    ∀ (bs : List StoryBeat) (k : Nat),
      (beat_tasks_of pe ev k bs).map task_ref =
        expected_refs_of (pe.length + 1) (k + 1) bs := by
  intro bs
  induction bs with
  | nil => intro k; rfl
  | cons b rest ih =>
    intro k
    simp only [beat_tasks_of, List.map_cons, expected_refs_of, ih]
    rfl

theorem beat_tasks_map_ref :
    ∀ (events pe : List PlotEvent),
      (beat_tasks pe events).map task_ref =
        expected_beat_refs_from (pe.length + 1) events := by
  intro events
  induction events with
  | nil => intro pe; rfl
  | cons ev rest ih =>
    intro pe
    simp only [beat_tasks, List.map_append, expected_beat_refs_from,
      beat_tasks_of_map_ref]
    rw [ih (pe ++ [ev])]
    simp

theorem beat_tasks_of_length (pe : List PlotEvent) (ev : PlotEvent) :
    ∀ (bs : List StoryBeat) (k : Nat),
      (beat_tasks_of pe ev k bs).length = bs.length := by
  intro bs
  induction bs with
  | nil => intro k; rfl
  | cons b rest ih =>
    intro k
    simp only [beat_tasks_of, List.length_cons, ih]

theorem beat_tasks_length :
    ∀ (events pe : List PlotEvent),
      (beat_tasks pe events).length =
        (events.map (fun ev => ev.beats.length)).sum := by
  intro events
  induction events with
  | nil => intro pe; rfl
  | cons ev rest ih =>
    intro pe
    simp only [beat_tasks, List.length_append, beat_tasks_of_length,
      List.map_cons, List.sum_cons, ih]

theorem run_state_eq_walk_tasks
    (g : GenerationContext → Except Failure BeatNarration)
    (e : EvalContext → Except Failure ConflictEvaluation) :
    ∀ (tasks : List BeatTask) (inp : NarratorInput)
      (acc : List BeatNarration) (trs : List BeatTrace),
      run_state g e tasks ⟨inp, acc, trs⟩ =
        match walk_tasks g e inp.characters inp.tone tasks acc trs with
        | .error fp => .error fp.1
        | .ok (ns, trs2) => .ok ⟨inp, ns, trs2⟩ := by
  intro tasks
  induction tasks with
  | nil => intro inp acc trs; rfl
  | cons t rest ih =>
    intro inp acc trs
    simp only [run_state, step_task, walk_tasks]
    cases process_beat g e inp.characters inp.tone t.prior_events t.plot_event
        t.prior_events.length t.beat_idx t.beat acc with
    | error f => rfl
    | ok p => exact ih inp (acc ++ [p.1]) (trs ++ [p.2])

theorem run_state_preserves_input
    (g : GenerationContext → Except Failure BeatNarration)
    (e : EvalContext → Except Failure ConflictEvaluation) :
    ∀ (tasks : List BeatTask) (s s2 : WalkState),
      run_state g e tasks s = .ok s2 → s2.input_data = s.input_data := by
  intro tasks
  induction tasks with
  | nil =>
    intro s s2 h
    simp only [run_state, Except.ok.injEq] at h
    rw [h]
  | cons t rest ih =>
    intro s s2 h
    simp only [run_state, step_task] at h
    cases hp : process_beat g e s.input_data.characters s.input_data.tone
        t.prior_events t.plot_event t.prior_events.length t.beat_idx t.beat
        s.all_narrations with
    | error f => simp only [hp] at h; exact absurd h (by simp)
    | ok p =>
      obtain ⟨narration, tr⟩ := p
      simp only [hp] at h
      exact ih { input_data := s.input_data,
                 all_narrations := s.all_narrations ++ [narration],
                 traces := s.traces ++ [tr] } s2 h

/-- Claim C1: immutability of finalized units.  Starting the walk from any
already-committed corpus `acc` (the corpus after beat k), all later
processing — every later beat's Generate call and both Evaluation/Revision
rounds — leaves the entries of `acc` unchanged, on success and on failure
alike: the resulting corpus is exactly `acc` extended by newly committed
units, so `narrative_text` and `beat_reference` of entries 1..k are intact
and the corpus is append-only (it grows only at the Commit append). -/
theorem claim_C1_finalized_units_immutable
    (g : GenerationContext → Except Failure BeatNarration)
    (e : EvalContext → Except Failure ConflictEvaluation)
    (characters : List CharacterProfile) (tone : String)
    (prior_events events : List PlotEvent)
    (acc : List BeatNarration) (trs : List BeatTrace) :
    match walk_events g e characters tone prior_events events acc trs with
    | .ok (ns, _) => ∃ rest, ns = acc ++ rest
    | .error (_, p) => ∃ rest, p = acc ++ rest := by
  rw [walk_events_eq_walk_tasks]
  cases hw : walk_tasks g e characters tone (beat_tasks prior_events events)
      acc trs with
  | error fp =>
    obtain ⟨f, p⟩ := fp
    obtain ⟨pre, t, post, trs2, -, hok, -, -⟩ :=
      walk_tasks_error_decomp g e characters tone _ acc trs f p hw
    obtain ⟨newns, -, h1, -, -, -⟩ :=
      walk_tasks_ok_extends g e characters tone pre acc trs p trs2 hok
    exact ⟨newns, h1⟩
  | ok q =>
    obtain ⟨ns, trs2⟩ := q
    obtain ⟨newns, -, h1, -, -, -⟩ :=
      walk_tasks_ok_extends g e characters tone _ acc trs ns trs2 hw
    exact ⟨newns, h1⟩

/-- Claim C2: ordering and labels.  A successful run returns exactly
`total_beats` narration entries, and their `beat_reference` labels are, in
order, the labels "Event i, Beat j" (1-based) of the architecture's beats in
document order — events in order, beats in order within each event. -/
theorem claim_C2_ordering_and_labels
    (g : GenerationContext → Except Failure BeatNarration)
    (e : EvalContext → Except Failure ConflictEvaluation)
    (input : NarratorInput) :
    match generate_narration g e input with
    | .ok story =>
        story.narrations.length = total_beats input.story_architecture ∧
        story.narrations.map BeatNarration.beat_reference =
          expected_beat_refs input.story_architecture
    | .error _ => True := by
  unfold generate_narration generate_narration_traced
  rw [walk_events_eq_walk_tasks]
  cases hw : walk_tasks g e input.characters input.tone
      (beat_tasks [] input.story_architecture.plot_events) [] [] with
  | error fp => trivial
  | ok q =>
    obtain ⟨ns, trs2⟩ := q
    refine ⟨?_, ?_⟩
    · obtain ⟨newns, -, h1, -, h3, -⟩ :=
        walk_tasks_ok_extends g e input.characters input.tone _ [] [] ns trs2 hw
      simp only [List.nil_append] at h1
      subst h1
      rw [h3, beat_tasks_length]
      rfl
    · have := walk_tasks_ok_refs g e input.characters input.tone _ [] [] ns trs2 hw
      simp only [List.map_nil, List.nil_append] at this
      rw [this, beat_tasks_map_ref]
      rfl

/-- Claim C3: fixed revision count.  On a successful run there is one trace
per beat, and every beat's trace records exactly two Evaluation/Revision
invocations — for every generation and evaluation chain, hence regardless of
whether `conflicts_found` was empty on the first call. -/
theorem claim_C3_fixed_revision_count
    (g : GenerationContext → Except Failure BeatNarration)
    (e : EvalContext → Except Failure ConflictEvaluation)
    (input : NarratorInput) :
    match generate_narration_traced g e input with
    | .ok (_, trs) =>
        trs.length = total_beats input.story_architecture ∧
        trs.map (fun tr => tr.evalCtxs.length) = List.replicate trs.length 2
    | .error _ => True := by
  unfold generate_narration_traced
  rw [walk_events_eq_walk_tasks]
  cases hw : walk_tasks g e input.characters input.tone
      (beat_tasks [] input.story_architecture.plot_events) [] [] with
  | error fp => trivial
  | ok q =>
    obtain ⟨ns, trs2⟩ := q
    obtain ⟨-, newtrs, -, h2, -, h4⟩ :=
      walk_tasks_ok_extends g e input.characters input.tone _ [] [] ns trs2 hw
    simp only [List.nil_append] at h2
    have hlen : trs2.length = total_beats input.story_architecture := by
      rw [h2, h4, beat_tasks_length]; rfl
    refine ⟨hlen, ?_⟩
    have hmap := walk_tasks_ok_evalcount g e input.characters input.tone _ [] []
      ns trs2 hw
    simp only [List.map_nil, List.nil_append] at hmap
    rw [hmap, h2, h4]

/-- Claim C4: revision rounds see the committed corpus only.  On a
successful run, for every beat position k, each of the (two) Evaluation
contexts recorded for that beat carries as `full_corpus` the rendering,
via `format_prior_narration`, of exactly the narrations committed for the
earlier beats (`ns.take k`) — not including the unit under revision — and
both rounds of the same beat receive this same rendering (the list of
`full_corpus` fields is constant). -/
theorem claim_C4_revisions_see_committed_corpus
    (g : GenerationContext → Except Failure BeatNarration)
    (e : EvalContext → Except Failure ConflictEvaluation)
    (input : NarratorInput) :
    match generate_narration_traced g e input with
    | .ok (ns, trs) =>
        ∀ k, ((trs.getD k default_trace).evalCtxs).map EvalContext.full_corpus =
          List.replicate ((trs.getD k default_trace).evalCtxs).length
            (format_prior_narration (ns.take k))
    | .error _ => True := by
  unfold generate_narration_traced
  rw [walk_events_eq_walk_tasks]
  cases hw : walk_tasks g e input.characters input.tone
      (beat_tasks [] input.story_architecture.plot_events) [] [] with
  | error fp => trivial
  | ok q =>
    obtain ⟨ns, trs2⟩ := q
    exact walk_tasks_corpus_inv g e input.characters input.tone _ [] [] ns trs2
      hw rfl (fun k => rfl)

/-- Claim C5: partial-failure preservation.  If the run aborts, the corpus
at the point of failure consists of exactly the units committed for the
beats fully processed before the failing one: the beat schedule splits into
a prefix that was walked successfully and produced exactly that corpus (one
entry per beat, so k entries for beats 1..k, unchanged), the failing beat —
whose `process_beat` (its Generate call or a Revise call) fails on that very
corpus, committing nothing — and the beats never reached. -/
theorem claim_C5_partial_failure_preservation
    (g : GenerationContext → Except Failure BeatNarration)
    (e : EvalContext → Except Failure ConflictEvaluation)
    (input : NarratorInput) :
    match generate_narration g e input with
    | .error (f, p) =>
        ∃ pre t post trs2,
          beat_tasks [] input.story_architecture.plot_events = pre ++ t :: post ∧
          walk_tasks g e input.characters input.tone pre [] [] = .ok (p, trs2) ∧
          p.length = pre.length ∧
          process_beat g e input.characters input.tone t.prior_events
            t.plot_event t.prior_events.length t.beat_idx t.beat p = .error f
    | .ok _ => True := by
  unfold generate_narration generate_narration_traced
  rw [walk_events_eq_walk_tasks]
  cases hw : walk_tasks g e input.characters input.tone
      (beat_tasks [] input.story_architecture.plot_events) [] [] with
  | ok q => obtain ⟨ns, trs2⟩ := q; trivial
  | error fp =>
    obtain ⟨f, p⟩ := fp
    obtain ⟨pre, t, post, trs2, h1, h2, h3, h4⟩ :=
      walk_tasks_error_decomp g e input.characters input.tone _ [] [] f p hw
    exact ⟨pre, t, post, trs2, h1, h2, by simpa using h3, h4⟩

/-- Claim C6: the committed unit's `beat_reference` is assigned by the
walker.  Whatever `beat_reference` the external generation chain returned
(the statement quantifies over every chain `g`), a successfully processed
beat at event index `event_idx` and beat index `beat_idx` (0-based) carries
`walker_beat_reference event_idx beat_idx`, i.e. "Event {event_idx+1},
Beat {beat_idx+1}": the walker overwrites the field after the Generate call
returns, and the revision rounds never touch it. -/
theorem claim_C6_walker_assigns_beat_reference
    (g : GenerationContext → Except Failure BeatNarration)
    (e : EvalContext → Except Failure ConflictEvaluation)
    (characters : List CharacterProfile) (tone : String)
    (prior_events : List PlotEvent) (plot_event : PlotEvent)
    (event_idx beat_idx : Nat) (beat : StoryBeat)
    (all_narrations : List BeatNarration) :
    match process_beat g e characters tone prior_events plot_event event_idx
        beat_idx beat all_narrations with
    | .ok (n, _) =>
        n.beat_reference = walker_beat_reference event_idx beat_idx ∧
        walker_beat_reference event_idx beat_idx =
          "Event " ++ toString (event_idx + 1) ++ ", Beat " ++
            toString (beat_idx + 1)
    | .error _ => True := by
  cases hp : process_beat g e characters tone prior_events plot_event
      event_idx beat_idx beat all_narrations with
  | error f => trivial
  | ok q =>
    obtain ⟨n, tr⟩ := q
    exact ⟨(process_beat_spec g e characters tone prior_events plot_event
      event_idx beat_idx beat all_narrations n tr hp).1, rfl⟩

/-- Claim C7: sentinel text on empty context.  `format_prior_narration` on
the empty corpus returns the "no narrative written yet" sentinel, and
`format_prior_context` for the first beat of the first event (no prior
events, beat index 0) returns the "beginning of the story" sentinel; both
are total Lean functions, so neither throws on empty input. -/
theorem claim_C7_empty_context_sentinels :
    format_prior_narration [] =
      "No narrative has been written yet. This is the first beat." ∧
    ∀ current_event : PlotEvent,
      format_prior_context [] current_event 0 =
        "This is the beginning of the story. No prior context." := by
  exact ⟨rfl, fun current_event => rfl⟩

/-- Claim C9: inputs are never mutated.  Running the pipeline as a state
machine over its beat schedule, starting from the supplied `NarratorInput`
(architecture plus roster plus tone) and the empty corpus, yields a final
state whose `input_data` — in particular the `StoryArchitecture` with all
its events and beats, and the `CharacterProfile` roster — is exactly the
value passed in; only the corpus and traces were written.  The final
corpus is precisely what `generate_narration` returns, so the state machine
is the pipeline and not a parallel model. -/
theorem claim_C9_inputs_never_mutated
    (g : GenerationContext → Except Failure BeatNarration)
    (e : EvalContext → Except Failure ConflictEvaluation)
    (input : NarratorInput) :
    match run_state g e (beat_tasks [] input.story_architecture.plot_events)
        ⟨input, [], []⟩ with
    | .ok s2 =>
        s2.input_data = input ∧
        s2.input_data.story_architecture = input.story_architecture ∧
        s2.input_data.characters = input.characters ∧
        s2.input_data.tone = input.tone ∧
        generate_narration g e input = .ok ⟨s2.all_narrations⟩
    | .error _ => True := by
  rw [run_state_eq_walk_tasks]
  unfold generate_narration generate_narration_traced
  rw [walk_events_eq_walk_tasks]
  cases hw : walk_tasks g e input.characters input.tone
      (beat_tasks [] input.story_architecture.plot_events) [] [] with
  | error fp => trivial
  | ok q =>
    obtain ⟨ns, trs2⟩ := q
    exact ⟨rfl, rfl, rfl, rfl, rfl⟩

theorem eval_rounds_congr
    (e1 e2 : EvalContext → Except Failure ConflictEvaluation)
    (h : ∀ ctx, (e1 ctx).map ConflictEvaluation.revised_narrative
        = (e2 ctx).map ConflictEvaluation.revised_narrative)
    (bt bd : String) (ns : List BeatNarration)
    (pe : List PlotEvent) (ev : PlotEvent) (bi : Nat) :
    ∀ (iters : List Nat) (narration : BeatNarration) (ctxs : List EvalContext),
      eval_rounds e1 bt bd ns pe ev bi iters narration ctxs
        = eval_rounds e2 bt bd ns pe ev bi iters narration ctxs := by
  intro iters
  induction iters with
  | nil => intro narration ctxs; rfl
  | cons it rest ih =>
    intro narration ctxs
    simp only [eval_rounds]
    have hc := h (eval_context_of bt bd ns pe ev bi narration)
    cases h1 : e1 (eval_context_of bt bd ns pe ev bi narration) with
    | error f =>
      rw [h1] at hc
      cases h2 : e2 (eval_context_of bt bd ns pe ev bi narration) with
      | error f2 =>
        rw [h2] at hc
        simp only [Except.map] at hc
        simp only [Except.error.injEq] at hc
        rw [hc]
      | ok r2 =>
        rw [h2] at hc
        simp only [Except.map] at hc
        exact absurd hc (by simp)
    | ok r1 =>
      rw [h1] at hc
      cases h2 : e2 (eval_context_of bt bd ns pe ev bi narration) with
      | error f2 =>
        rw [h2] at hc
        simp only [Except.map] at hc
        exact absurd hc (by simp)
      | ok r2 =>
        rw [h2] at hc
        simp only [Except.map, Except.ok.injEq] at hc
        dsimp only
        rw [hc]
        exact ih _ _

theorem process_beat_congr
    (g : GenerationContext → Except Failure BeatNarration)
    (e1 e2 : EvalContext → Except Failure ConflictEvaluation)
    (h : ∀ ctx, (e1 ctx).map ConflictEvaluation.revised_narrative
        = (e2 ctx).map ConflictEvaluation.revised_narrative)
    (characters : List CharacterProfile) (tone : String)
    (prior_events : List PlotEvent) (plot_event : PlotEvent)
    (event_idx beat_idx : Nat) (beat : StoryBeat)
    (all_narrations : List BeatNarration) :
    process_beat g e1 characters tone prior_events plot_event event_idx
        beat_idx beat all_narrations
      = process_beat g e2 characters tone prior_events plot_event event_idx
        beat_idx beat all_narrations := by
  simp only [process_beat]
  cases g (generation_context_of characters tone prior_events plot_event
      beat_idx beat all_narrations) with
  | error f => rfl
  | ok narration0 =>
    dsimp only
    rw [eval_rounds_congr e1 e2 h]

theorem walk_tasks_congr
    (g : GenerationContext → Except Failure BeatNarration)
    (e1 e2 : EvalContext → Except Failure ConflictEvaluation)
    (h : ∀ ctx, (e1 ctx).map ConflictEvaluation.revised_narrative
        = (e2 ctx).map ConflictEvaluation.revised_narrative)
    (characters : List CharacterProfile) (tone : String) :
    ∀ (tasks : List BeatTask) (acc : List BeatNarration) (trs : List BeatTrace),
      walk_tasks g e1 characters tone tasks acc trs
        = walk_tasks g e2 characters tone tasks acc trs := by
  intro tasks
  induction tasks with
  | nil => intro acc trs; rfl
  | cons t rest ih =>
    intro acc trs
    simp only [walk_tasks]
    rw [process_beat_congr g e1 e2 h]
    cases process_beat g e2 characters tone t.prior_events t.plot_event
        t.prior_events.length t.beat_idx t.beat acc with
    | error f => rfl
    | ok p => exact ih _ _

/-- Claim C10: the `conflicts_found` list returned by the Evaluation/
Revision calls is never inspected by the walker — after every revision round
the unit's text is unconditionally replaced by `revised_narrative`, empty
conflict list or not.  Formally: two evaluation chains that agree on
`revised_narrative` (and on failures) but may return arbitrarily different
`conflicts_found` produce identical pipeline runs — the same
`generate_narration` result and even the same traces. -/
theorem claim_C10_conflicts_found_never_inspected
    (g : GenerationContext → Except Failure BeatNarration)
    (e1 e2 : EvalContext → Except Failure ConflictEvaluation)
    (input : NarratorInput)
    (h : ∀ ctx, (e1 ctx).map ConflictEvaluation.revised_narrative
        = (e2 ctx).map ConflictEvaluation.revised_narrative) :
    generate_narration g e1 input = generate_narration g e2 input ∧
    generate_narration_traced g e1 input
      = generate_narration_traced g e2 input := by
  have htr : generate_narration_traced g e1 input
      = generate_narration_traced g e2 input := by
    unfold generate_narration_traced
    rw [walk_events_eq_walk_tasks, walk_events_eq_walk_tasks]
    exact walk_tasks_congr g e1 e2 h input.characters input.tone _ [] []
  refine ⟨?_, htr⟩
  unfold generate_narration
  rw [htr]

/-- Witness for claim C10 at a concrete input: `stub_eval` reports no
conflicts, `noisy_eval` reports one, both echo the text — the runs agree. -/
theorem claim_C10_witness :
    generate_narration stub_gen stub_eval sample_input
        = generate_narration stub_gen noisy_eval sample_input ∧
    generate_narration_traced stub_gen stub_eval sample_input
        = generate_narration_traced stub_gen noisy_eval sample_input :=
  claim_C10_conflicts_found_never_inspected stub_gen stub_eval noisy_eval
    sample_input (fun _ => rfl)

/-- Claim C8: involved-character formatting.  The profiles rendered by
`format_involved_characters` are exactly the roster entries whose `name` is
a member of the beat's `characters_involved` (exact match); they form a
sublist of the roster, hence appear in roster order; the order of names in
the beat is irrelevant (reversing `characters_involved` changes nothing);
and when no roster profile matches, the output is the fixed sentinel —
which the if-then-else characterization exhibits, since the filtered list
is then empty. -/
theorem claim_C8_involved_character_formatting
    (beat : StoryBeat) (characters : List CharacterProfile) :
    (∀ c, c ∈ characters.filter
        (fun c => beat.characters_involved.contains c.name) ↔
        c ∈ characters ∧ c.name ∈ beat.characters_involved) ∧
    (characters.filter
        (fun c => beat.characters_involved.contains c.name)).Sublist
      characters ∧
    format_involved_characters beat characters =
      (if (characters.filter
            (fun c => beat.characters_involved.contains c.name)).isEmpty
       then "No specific characters identified for this beat."
       else render_involved (characters.filter
            (fun c => beat.characters_involved.contains c.name))) ∧
    format_involved_characters
        { beat with characters_involved := beat.characters_involved.reverse }
        characters
      = format_involved_characters beat characters := by
  refine ⟨?_, List.filter_sublist characters, rfl, ?_⟩
  · intro c
    rw [List.mem_filter]
    simp
  · simp only [format_involved_characters]
    have hfil : characters.filter
        (fun c => beat.characters_involved.reverse.contains c.name)
        = characters.filter
          (fun c => beat.characters_involved.contains c.name) := by
      apply List.filter_congr
      intro c hc
      simp [List.contains, List.elem_eq_mem]
    rw [hfil]

example :
    generate_narration stub_gen stub_eval sample_input =
      .ok ⟨[⟨"x", "Event 1, Beat 1"⟩, ⟨"x", "Event 1, Beat 2"⟩]⟩ := by
  rfl

example :
    generate_narration stub_gen failing_eval sample_input =
      .error (⟨"transport error"⟩, []) := by
  rfl

example :
    format_involved_characters ⟨"d", "t", []⟩ [elijah] =
      "No specific characters identified for this beat." := by
  rfl

end StoryLord
